import Mathlib

/-!
Verification of the rolling segment buffer of the Standalone-Buffer
repository (`src/backend/app/ffmpeg_buffer.py`, `src/backend/app/main.py`,
`src/backend/app/config.py`).

The filesystem directory is modelled as a list of `DirEntry` records
(one per directory entry, carrying the name, the regular-file flag, the
`stat` size and mtime, and a flag marking entries whose per-file `stat`
or `unlink` raises).  Times are integer epoch seconds.  Python `datetime`
values (produced by `strptime` on the filename or by
`datetime.utcfromtimestamp` on the mtime) are encoded as a mixed-radix
integer key that is order- and equality-isomorphic to the lexicographic
comparison of `(year, month, day, hour, minute, second)`.
-/

namespace StandaloneBuffer

/-- One directory entry, as the Python code observes it through
`Path.glob`, `Path.is_file`, and `Path.stat`.  `statError` marks a file
whose per-file `stat`/`unlink` raises an exception at processing time
(the code catches these per file). -/
structure DirEntry where
  name : String
  isFile : Bool
  size : Nat
  mtime : Int
  statError : Bool
deriving DecidableEq, Repr

/-- `FFmpegBufferManager._iter_segment_files`: all regular files in the
buffer directory whose names match the glob `seg_*.mp3`, i.e. start with
`seg_` and end with `.mp3`. -/
def matchesSegGlob (n : String) : Bool :=
  List.isPrefixOf "seg_".data n.data && List.isSuffixOf ".mp3".data n.data

def iterSegmentFiles (dir : List DirEntry) : List DirEntry :=
  dir.filter (fun p => matchesSegGlob p.name && p.isFile)

/-! ### Timestamps

`FFmpegBufferManager._timestamp_from_name` parses
`seg_<YYYYMMDD>_<HHMMSS>.mp3` with `datetime.strptime(ts, "%Y%m%d_%H%M%S")`
after `stem = name.split(".")[0]` and `_, ts = stem.split("_", 1)`;
any failure yields `None`.  The fallback is
`datetime.utcfromtimestamp(mtime)`.  Both produce naive `datetime`
values compared lexicographically by field; we encode such a value as
the injective, order-preserving key
`(((((y*12 + (mo-1))*31 + (d-1))*24 + h)*60 + mi)*60 + s)`. -/

def dateTimeKey (y : Int) (mo d h mi s : Nat) : Int :=
  ((((y * 12 + (mo - 1 : Int)) * 31 + ((d : Int) - 1)) * 24 + h) * 60 + mi) * 60 + s

def digitVal (c : Char) : Option Nat :=
  if c.isDigit then some (c.toNat - 48) else none

def isLeapYear (y : Nat) : Bool :=
  (y % 4 == 0 && y % 100 != 0) || y % 400 == 0

def daysInMonth (y mo : Nat) : Nat :=
  if mo = 2 then (if isLeapYear y then 29 else 28)
  else if mo = 4 ∨ mo = 6 ∨ mo = 9 ∨ mo = 11 then 30
  else 31

def num2 (a b : Char) : Option Nat := do
  let a ← digitVal a
  let b ← digitVal b
  pure (a * 10 + b)

/-- `datetime.strptime(ts, "%Y%m%d_%H%M%S")` on the canonical
fifteen-character timestamp string, with the range validation that
`strptime`/`datetime` perform (year ≥ 1, month 1–12, day within the
month, hour ≤ 23, minute/second ≤ 59); anything else raises and becomes
`none`. -/
def strptimeKey (cs : List Char) : Option Int :=
  match cs with
  | [y1, y2, y3, y4, a1, a2, b1, b2, u, h1, h2, m1, m2, s1, s2] =>
    if u = '_' then do
      let d1 ← digitVal y1
      let d2 ← digitVal y2
      let d3 ← digitVal y3
      let d4 ← digitVal y4
      let y := ((d1 * 10 + d2) * 10 + d3) * 10 + d4
      let mo ← num2 a1 a2
      let d ← num2 b1 b2
      let h ← num2 h1 h2
      let mi ← num2 m1 m2
      let s ← num2 s1 s2
      if 1 ≤ y ∧ 1 ≤ mo ∧ mo ≤ 12 ∧ 1 ≤ d ∧ d ≤ daysInMonth y mo ∧
          h ≤ 23 ∧ mi ≤ 59 ∧ s ≤ 59 then
        pure (dateTimeKey (y : Int) mo d h mi s)
      else none
    else none
  | _ => none

/-- `name.split(".")[0]`: the characters before the first dot. -/
def upToFirstDot : List Char → List Char
  | [] => []
  | c :: cs => if c = '.' then [] else c :: upToFirstDot cs

/-- `stem.split("_", 1)[1]`: the characters after the first underscore;
`none` when there is no underscore (the tuple unpacking raises). -/
def afterFirstUnderscore : List Char → Option (List Char)
  | [] => none
  | c :: cs => if c = '_' then some cs else afterFirstUnderscore cs

def timestampFromName (name : String) : Option Int :=
  (afterFirstUnderscore (upToFirstDot name.data)).bind strptimeKey

/-- Civil date from days since 1970-01-01 (the standard
era/day-of-era/year-of-era conversion used by `datetime`). -/
def civilFromDays (z0 : Int) : Int × Nat × Nat :=
  let z := z0 + 719468
  let era := Int.fdiv z 146097
  let doe : Nat := (z - era * 146097).toNat
  let yoe := (doe - doe / 1460 + doe / 36524 - doe / 146096) / 365
  let doy := doe - (365 * yoe + yoe / 4 - yoe / 100)
  let mp := (5 * doy + 2) / 153
  let d := doy - (153 * mp + 2) / 5 + 1
  let mo := if mp < 10 then mp + 3 else mp - 9
  let y : Int := era * 400 + yoe
  ((if mo ≤ 2 then y + 1 else y), mo, d)

/-- `datetime.utcfromtimestamp(t)` for whole-second `t`, as a key. -/
def utcfromtimestampKey (t : Int) : Int :=
  let days := Int.fdiv t 86400
  let secs := (t - days * 86400).toNat
  let c := civilFromDays days
  dateTimeKey c.1 c.2.1 c.2.2 (secs / 3600) (secs % 3600 / 60) (secs % 60)

/-- The timestamp the selector attaches to a stable segment:
`_timestamp_from_name(path.name)`, falling back to
`datetime.utcfromtimestamp(mtime)`. -/
def timestampOf (e : DirEntry) : Int :=
  match timestampFromName e.name with
  | some ts => ts
  | none => utcfromtimestampKey e.mtime

/-! ### The selector (`recent_segments_for_minutes`) -/

/-- The `stable_segments` list built by the selector's first loop at
wall-clock `now`: every listed segment file whose `stat` succeeds, whose
size is nonzero and whose mtime is strictly below `now - 2`, paired with
its timestamp, in listing order. -/
def stableSegments (now : Int) (dir : List DirEntry) : List (DirEntry × Int) :=
  (iterSegmentFiles dir).filterMap (fun e =>
    if e.statError then none
    else if e.size = 0 then none
    else if now - 2 ≤ e.mtime then none
    else some (e, timestampOf e))

/-- `int(minutes * 60 / segment_seconds) + 1` for positive `minutes`. -/
def segmentsNeeded (segmentSeconds : Nat) (minutes : Int) : Nat :=
  minutes.toNat * 60 / segmentSeconds + 1

/-- `sort(key=lambda x: x[1])`: ascending by timestamp. -/
def tsLE (a b : DirEntry × Int) : Prop := a.2 ≤ b.2

/-- `sort(key=lambda x: x[1], reverse=True)`: descending by timestamp. -/
def tsGE (a b : DirEntry × Int) : Prop := b.2 ≤ a.2

instance : DecidableRel tsLE := fun a b => inferInstanceAs (Decidable (a.2 ≤ b.2))

instance : DecidableRel tsGE := fun a b => inferInstanceAs (Decidable (b.2 ≤ a.2))

instance : IsTotal (DirEntry × Int) tsLE := ⟨fun a b => Int.le_total a.2 b.2⟩

instance : IsTrans (DirEntry × Int) tsLE := ⟨fun _ _ _ h1 h2 => le_trans h1 h2⟩

instance : IsTotal (DirEntry × Int) tsGE := ⟨fun a b => Int.le_total b.2 a.2⟩

instance : IsTrans (DirEntry × Int) tsGE := ⟨fun _ _ _ h1 h2 => le_trans h2 h1⟩

/-- `recent_segments_for_minutes`, kept as (entry, timestamp) pairs:
guard `minutes ≤ 0`; build `stable_segments`; if empty return `[]`;
stable-sort newest first; take `min(needed, available)`; stable-sort the
taken prefix oldest first.  `list.sort` is a stable sort, modelled by
`List.insertionSort`, which is likewise stable. -/
def recentSegmentsWithTs (segmentSeconds : Nat) (now : Int) (dir : List DirEntry)
    (minutes : Int) : List (DirEntry × Int) :=
  if minutes ≤ 0 then []
  else if stableSegments now dir = [] then []
  else
    List.insertionSort tsLE
      ((List.insertionSort tsGE (stableSegments now dir)).take
        (min (segmentsNeeded segmentSeconds minutes) (stableSegments now dir).length))

/-- `recent_segments_for_minutes`: the returned paths (names, since all
live in the one buffer directory). -/
def recentSegmentsForMinutes (segmentSeconds : Nat) (now : Int) (dir : List DirEntry)
    (minutes : Int) : List String :=
  (recentSegmentsWithTs segmentSeconds now dir minutes).map (fun p => p.1.name)

/-! ### The retention sweeper (`_cleanup_old_segments`) -/

/-- The names unlinked during one `_cleanup_old_segments` tick at
wall-clock `now`: the loop walks `_iter_segment_files()`, stats each
file, and unlinks it when `mtime < now - (buffer_minutes +
cleanup_margin_minutes) * 60`; a per-file exception is caught and the
loop continues with the next file. -/
def deletedByCleanup (bufferMinutes cleanupMarginMinutes : Nat) (now : Int)
    (dir : List DirEntry) : List String :=
  let cutoff := now - ((bufferMinutes + cleanupMarginMinutes : Nat) : Int) * 60
  (iterSegmentFiles dir).foldl (fun acc e =>
    if e.statError then acc
    else if e.mtime < cutoff then acc ++ [e.name]
    else acc) []

/-- The directory contents after one `_cleanup_old_segments` tick: the
original entries minus the unlinked ones. -/
def cleanupOldSegments (bufferMinutes cleanupMarginMinutes : Nat) (now : Int)
    (dir : List DirEntry) : List DirEntry :=
  let deleted := deletedByCleanup bufferMinutes cleanupMarginMinutes now dir
  dir.filter (fun e => !(deleted.contains e.name))

/-! ### Concatenation (`main.py`, `_concat_stream` / `_gen`) -/

/-- What `_concat_stream` hands back to `StreamingResponse`: either the
Python list `[]` (the explicit "nothing to stream" value, returned both
for an empty input list and when no input file survives the at-use
filter) or the `_gen()` generator wired to an ffmpeg concat process fed
the surviving files, in order. -/
inductive ConcatResult where
  | emptyList
  | generator (manifest : List String)
deriving DecidableEq, Repr

/-- `_concat_stream(file_list)`.  `fs` is the filesystem at use time:
`fs p = none` models `not p.exists()`, `fs p = some sz` models
`p.stat().st_size == sz`. -/
def concatStream (fs : String → Option Nat) (fileList : List String) : ConcatResult :=
  if fileList = [] then .emptyList
  else if fileList.filter (fun p =>
      match fs p with
      | none => false
      | some sz => sz != 0) = [] then .emptyList
  else .generator (fileList.filter (fun p =>
    match fs p with
    | none => false
    | some sz => sz != 0))

/-- One `proc.stdout.read(8192)` call inside `_gen`: it returns a chunk
of `len` bytes (`len = 0` is EOF) or raises. -/
inductive ReadStep where
  | chunk (len : Nat)
  | fail
deriving DecidableEq, Repr

/-- Observable outcome of running the `_gen` generator to completion:
how many bytes were yielded to the caller, and the HTTP status of the
`HTTPException` the generator raised, if any. -/
structure GenOutcome where
  bytesYielded : Nat
  raisedStatus : Option Nat
deriving DecidableEq, Repr

/-- The read loop of `_gen`: yield chunks until an empty read (EOF);
a read exception aborts the loop and raises `HTTPException(500, ...)`
after the `finally` block runs. -/
def genLoop : List ReadStep → Nat → Nat × Option Nat
  | [], acc => (acc, none)
  | .chunk 0 :: _, acc => (acc, none)
  | .chunk n :: rest, acc => genLoop rest (acc + n)
  | .fail :: _, acc => (acc, some 500)

/-- Running `_gen` against a concat process whose stdout produces
`reads` and which exits with `returncode`.  The `finally` block waits on
the process and, for a nonzero returncode, only prints the captured
stderr: the returncode never changes what the caller observes. -/
def genRun (reads : List ReadStep) (returncode : Int) : GenOutcome :=
  { bytesYielded := (genLoop reads 0).1, raisedStatus := (genLoop reads 0).2 }

/-- `true` iff the read script contains a failing read before EOF, i.e.
the `_gen` loop will hit its `except` branch. -/
def readFailsBeforeEof : List ReadStep → Bool
  | [] => false
  | .chunk 0 :: _ => false
  | .chunk _ :: rest => readFailsBeforeEof rest
  | .fail :: _ => true

/-! ### The download endpoint (`main.py`) -/

/-- What the `/download` route produces: FastAPI's validation rejection
of the `minutes` query parameter, an `HTTPException`, or a
`StreamingResponse` wrapping `_concat_stream(files)`. -/
inductive DownloadResponse where
  | validationError (status : Nat)
  | httpError (status : Nat) (detail : String)
  | streaming (body : ConcatResult) (mediaType : String) (filename : String)
deriving DecidableEq, Repr

/-- The `minutes` query validation on the download route,
`Query(2, ge=1, le=30)`.  `maxDownloadMinutes` is
`settings.MAX_DOWNLOAD_MINUTES` (`config.py`), which the route does not
consult: the bounds are the literals `1` and `30`. -/
def downloadAccepts (maxDownloadMinutes minutes : Int) : Bool :=
  1 ≤ minutes && minutes ≤ 30

/-- The `/download` handler: validate `minutes`, select segments, raise
`HTTPException(503, ...)` when the selector returns nothing, otherwise
stream `_concat_stream(files)`. -/
def download (segmentSeconds : Nat) (now : Int) (dir : List DirEntry)
    (fs : String → Option Nat) (minutes : Int) : DownloadResponse :=
  if !(1 ≤ minutes && minutes ≤ 30) then .validationError 422
  else if recentSegmentsForMinutes segmentSeconds now dir minutes = [] then
    .httpError 503 "Buffer not ready yet; please try again shortly"
  else
    .streaming (concatStream fs (recentSegmentsForMinutes segmentSeconds now dir minutes))
      "audio/mpeg" ("last-" ++ toString minutes ++ "-minutes.mp3")

/-! ### Concrete inputs used by witnesses and counterexamples -/

/-- A stable segment file; the index keeps names distinct. -/
def witSeg (i : Nat) : DirEntry :=
  { name := "seg_" ++ toString i ++ ".mp3", isFile := true, size := 1, mtime := 0,
    statError := false }

/-- A stable segment file whose name parses to 2024-01-01 00:00:00. -/
def tieA : DirEntry :=
  { name := "seg_20240101_000000.mp3", isFile := true, size := 1, mtime := 0,
    statError := false }

/-- A distinct stable segment file whose name parses to the same
timestamp as `tieA`: `split(".")[0]` drops everything after the first
dot, and the glob `seg_*.mp3` matches this name too. -/
def tieB : DirEntry :=
  { name := "seg_20240101_000000.x.mp3", isFile := true, size := 1, mtime := 0,
    statError := false }

/-- A listed segment file whose age at listing time 100 is exactly 2
seconds. -/
def boundarySeg : DirEntry :=
  { name := "seg_20240101_000000.mp3", isFile := true, size := 5, mtime := 98,
    statError := false }

/-- Sweep-scenario files at `now = 10000`, retention 12 min, margin
2 min, so the cutoff is `10000 - 840`: aged 13 min (kept). -/
def sweepKeep1 : DirEntry :=
  { name := "seg_k1.mp3", isFile := true, size := 9, mtime := 9220, statError := false }

/-- Aged exactly 14 min: its mtime equals the cutoff, so it is not
strictly older and is kept. -/
def sweepKeep2 : DirEntry :=
  { name := "seg_k2.mp3", isFile := true, size := 9, mtime := 9160, statError := false }

/-- Aged 15 min: strictly older than the cutoff, deleted. -/
def sweepGone : DirEntry :=
  { name := "seg_g.mp3", isFile := true, size := 9, mtime := 9100, statError := false }

/-- Far older than the cutoff but its per-file stat raises: the sweep
logs and keeps going, and this file survives the tick. -/
def sweepErr : DirEntry :=
  { name := "seg_e.mp3", isFile := true, size := 9, mtime := 8000, statError := true }

/-! ### Helper lemmas -/

/-- The stability filter, written as a plain `filter`: a listed segment
file survives iff its stat succeeds, its size is nonzero and its mtime
is strictly below `now - 2`. -/
lemma stableSegments_eq_filter (now : Int) (dir : List DirEntry) :
    stableSegments now dir =
      ((iterSegmentFiles dir).filter (fun e =>
          !e.statError && !(e.size == 0) && decide (e.mtime < now - 2))).map
        (fun e => (e, timestampOf e)) := by
  unfold stableSegments
  generalize iterSegmentFiles dir = l
  induction l with
  | nil => rfl
  | cons e l ih =>
    rw [List.filterMap_cons, List.filter_cons]
    cases h1 : e.statError with
    | true => simpa [h1] using ih
    | false =>
      by_cases h2 : e.size = 0
      · simpa [h1, h2] using ih
      · by_cases h3 : now - 2 ≤ e.mtime
        · have h3' : ¬ e.mtime < now - 2 := by omega
          simpa [h1, h2, h3, h3'] using ih
        · have h3' : e.mtime < now - 2 := by omega
          simp only [h1, h2, h3, if_false, if_true, Bool.not_false, decide_eq_true_eq]
          simpa [h1, h2, h3, h3'] using congrArg (List.cons (e, timestampOf e)) ih

lemma mem_stableSegments_iff {now : Int} {dir : List DirEntry} {p : DirEntry × Int} :
    p ∈ stableSegments now dir ↔
      p.1 ∈ iterSegmentFiles dir ∧ p.1.statError = false ∧ p.1.size ≠ 0 ∧
        p.1.mtime < now - 2 ∧ p.2 = timestampOf p.1 := by
  rw [stableSegments_eq_filter]
  simp only [List.mem_map, List.mem_filter, Bool.and_eq_true, Bool.not_eq_true',
    decide_eq_true_eq, beq_eq_false_iff_ne, ne_eq]
  constructor
  · rintro ⟨e, ⟨he, ⟨h1, h2⟩, h3⟩, rfl⟩
    exact ⟨he, h1, h2, h3, rfl⟩
  · rintro ⟨he, h1, h2, h3, h4⟩
    exact ⟨p.1, ⟨he, ⟨h1, h2⟩, h3⟩, by rw [← h4]⟩

lemma mem_recentSegmentsWithTs {segSec : Nat} {now : Int} {dir : List DirEntry}
    {minutes : Int} {p : DirEntry × Int}
    (hp : p ∈ recentSegmentsWithTs segSec now dir minutes) :
    p ∈ stableSegments now dir := by
  unfold recentSegmentsWithTs at hp
  split at hp
  · simp at hp
  · split at hp
    · simp at hp
    · rw [List.mem_insertionSort tsLE] at hp
      exact (List.mem_insertionSort tsGE).mp (List.mem_of_mem_take hp)

lemma length_recentSegmentsWithTs (segSec : Nat) (now : Int) (dir : List DirEntry)
    (minutes : Int) (hm : 0 < minutes) :
    (recentSegmentsWithTs segSec now dir minutes).length =
      min (segmentsNeeded segSec minutes) (stableSegments now dir).length := by
  unfold recentSegmentsWithTs
  rw [if_neg (by omega)]
  by_cases h : stableSegments now dir = []
  · simp [h, segmentsNeeded]
  · rw [if_neg h]
    rw [List.length_insertionSort, List.length_take, List.length_insertionSort]
    omega

/-- Pushing any projection through the selector preserves freedom from
duplicates, because the selector only stable-sorts and takes a prefix of
the stable list. -/
lemma nodup_map_recentSegmentsWithTs {α : Type} {f : DirEntry × Int → α}
    {segSec : Nat} {now : Int} {dir : List DirEntry} {minutes : Int}
    (hf : ((stableSegments now dir).map f).Nodup) :
    ((recentSegmentsWithTs segSec now dir minutes).map f).Nodup := by
  unfold recentSegmentsWithTs
  split
  · simp
  · split
    · simp
    · have h1 : List.Perm ((List.insertionSort tsGE (stableSegments now dir)).map f)
          ((stableSegments now dir).map f) :=
        (List.perm_insertionSort tsGE _).map f
    -- the taken prefix is a sublist, so its image is too
      have h2 := (List.take_sublist
          (min (segmentsNeeded segSec minutes) (stableSegments now dir).length)
          (List.insertionSort tsGE (stableSegments now dir))).map f
      have h3 := (List.perm_insertionSort tsLE
          ((List.insertionSort tsGE (stableSegments now dir)).take
            (min (segmentsNeeded segSec minutes) (stableSegments now dir).length))).map f
      exact h3.nodup_iff.mpr (h2.nodup (h1.nodup_iff.mpr hf))

/-- The name list of the stable segments, as a filtered listing. -/
lemma stableSegments_map_name (now : Int) (dir : List DirEntry) :
    (stableSegments now dir).map (fun p => p.1.name) =
      ((iterSegmentFiles dir).filter (fun e =>
          !e.statError && !(e.size == 0) && decide (e.mtime < now - 2))).map
        DirEntry.name := by
  rw [stableSegments_eq_filter, List.map_map]
  rfl

/-- The body of the `_cleanup_old_segments` loop, as a filter. -/
lemma cleanup_foldl_eq (cutoff : Int) (l : List DirEntry) (acc : List String) :
    l.foldl (fun acc e =>
        if e.statError then acc
        else if e.mtime < cutoff then acc ++ [e.name]
        else acc) acc =
      acc ++ (l.filter (fun e => !e.statError && decide (e.mtime < cutoff))).map
        DirEntry.name := by
  induction l generalizing acc with
  | nil => simp
  | cons e l ih =>
    rw [List.foldl_cons, List.filter_cons]
    cases h1 : e.statError with
    | true => simp [h1, ih]
    | false =>
      by_cases h2 : e.mtime < cutoff
      · simp [h1, h2, ih]
      · simp [h1, h2, ih]

lemma deletedByCleanup_eq (bm cm : Nat) (now : Int) (dir : List DirEntry) :
    deletedByCleanup bm cm now dir =
      ((iterSegmentFiles dir).filter (fun e =>
          !e.statError && decide (e.mtime < now - ((bm + cm : Nat) : Int) * 60))).map
        DirEntry.name := by
  unfold deletedByCleanup
  simpa using cleanup_foldl_eq (now - ((bm + cm : Nat) : Int) * 60) (iterSegmentFiles dir) []

/-- The raise behaviour of the `_gen` read loop: it raises exactly when
a read fails before EOF. -/
lemma genLoop_snd (reads : List ReadStep) (acc : Nat) :
    (genLoop reads acc).2 = if readFailsBeforeEof reads then some 500 else none := by
  induction reads generalizing acc with
  | nil => rfl
  | cons s rest ih =>
    cases s with
    | fail => rfl
    | chunk n =>
      cases n with
      | zero => rfl
      | succ m => simpa [genLoop, readFailsBeforeEof] using ih (acc + (m + 1))

/-! ### Claim theorems -/

/-- C1: for every requested `minutes > 0` (with a positive segment
duration) the selector computes
`needed = floor(minutes * 60 / segment_seconds) + 1` and returns exactly
`min(needed, available)` stable segments. -/
theorem c1_select_count (segSec : Nat) (now : Int) (dir : List DirEntry)
    (minutes : Int) (hseg : 0 < segSec) (hm : 0 < minutes) :
    (recentSegmentsForMinutes segSec now dir minutes).length =
      min (minutes.toNat * 60 / segSec + 1) (stableSegments now dir).length := by
  unfold recentSegmentsForMinutes
  rw [List.length_map, length_recentSegmentsWithTs segSec now dir minutes hm]
  rfl

set_option maxRecDepth 40000 in
/-- Witness for C1: 200 stable segments available, `minutes = 5`,
`segment_seconds = 2`: exactly `floor(300/2) + 1 = 151` are returned. -/
theorem c1_select_count_witness :
    0 < 2 ∧ 0 < (5 : Int) ∧
      (recentSegmentsForMinutes 2 1000 ((List.range 200).map witSeg) 5).length = 151 := by
  refine ⟨by decide, by decide, ?_⟩
  rw [c1_select_count 2 1000 ((List.range 200).map witSeg) 5 (by decide) (by decide)]
  have h : (stableSegments 1000 ((List.range 200).map witSeg)).length = 200 := by decide
  rw [h]
  decide

/-- C3: the selector's output never contains a segment whose size was 0
or whose age was below 2 seconds at the moment of listing. -/
theorem c3_no_unstable_selected (segSec : Nat) (now : Int) (dir : List DirEntry)
    (minutes : Int) :
    ∀ p ∈ recentSegmentsWithTs segSec now dir minutes,
      p.1.size ≠ 0 ∧ ¬ (now - p.1.mtime < 2) := by
  intro p hp
  obtain ⟨_, _, hsz, hmt, _⟩ := mem_stableSegments_iff.mp (mem_recentSegmentsWithTs hp)
  exact ⟨hsz, by omega⟩

/-- Witness for C3 at a concrete one-segment directory. -/
theorem c3_no_unstable_selected_witness :
    (tieA, (65052979200 : Int)) ∈ recentSegmentsWithTs 2 100 [tieA] 1 ∧
      tieA.size ≠ 0 ∧ ¬ ((100 : Int) - tieA.mtime < 2) := by
  have hmem : (tieA, (65052979200 : Int)) ∈ recentSegmentsWithTs 2 100 [tieA] 1 := by
    decide
  have h := c3_no_unstable_selected 2 100 [tieA] 1 _ hmem
  exact ⟨hmem, h.1, h.2⟩

/-- C4 counterexample: a listed segment file with positive size whose
age is exactly 2 seconds — classified stable by the claim — is
discarded by the selector (`mtime >= now - 2` is skipped). -/
theorem c4_counterexample :
    (100 : Int) - boundarySeg.mtime = 2 ∧ 0 < boundarySeg.size ∧
      boundarySeg.statError = false ∧ boundarySeg ∈ iterSegmentFiles [boundarySeg] ∧
      stableSegments 100 [boundarySeg] = [] ∧
      recentSegmentsForMinutes 2 100 [boundarySeg] 1 = [] := by
  decide

/-- C4 (amended): a segment is stable exactly when its stat succeeds,
its size is positive and its age is strictly greater than 2 seconds
(`mtime < now - 2`); the boundary case of age exactly 2 seconds is
discarded. -/
theorem c4_stability_characterization (now : Int) (dir : List DirEntry)
    (p : DirEntry × Int) :
    p ∈ stableSegments now dir ↔
      p.1 ∈ iterSegmentFiles dir ∧ p.1.statError = false ∧ 0 < p.1.size ∧
        2 < now - p.1.mtime ∧ p.2 = timestampOf p.1 := by
  rw [mem_stableSegments_iff]
  constructor
  · rintro ⟨h1, h2, h3, h4, h5⟩
    exact ⟨h1, h2, by omega, by omega, h5⟩
  · rintro ⟨h1, h2, h3, h4, h5⟩
    exact ⟨h1, h2, by omega, by omega, h5⟩

/-- C8 counterexample: five bytes are delivered, then a read fails: the
generator re-raises HTTP 500 to the consumer of the byte stream, despite
the partial delivery. -/
theorem c8_counterexample :
    0 < (genRun [ReadStep.chunk 5, ReadStep.fail] 0).bytesYielded ∧
      (genRun [ReadStep.chunk 5, ReadStep.fail] 0).raisedStatus = some 500 := by
  decide

/-- C8 (amended): a nonzero concatenator exit status is diagnostic only
— the outcome of the byte stream is independent of the returncode — but
a read failure raises HTTP 500 regardless of bytes already delivered:
the generator raises exactly when a read fails before EOF. -/
theorem c8_exit_status_diagnostic_only (reads : List ReadStep) (rc rc' : Int) :
    genRun reads rc = genRun reads rc' ∧
      ((genRun reads rc).raisedStatus = none ↔ readFailsBeforeEof reads = false) := by
  refine ⟨rfl, ?_⟩
  show (genLoop reads 0).2 = none ↔ _
  rw [genLoop_snd]
  cases h : readFailsBeforeEof reads <;> simp

/-- C9: the route validates `minutes` against the literal bounds 1 and
30 and ignores `settings.MAX_DOWNLOAD_MINUTES`: with the setting at 60,
the in-range value 40 is rejected, and with the setting at 10, the
out-of-range value 20 is accepted. -/
theorem c9_bounds_hardcoded :
    downloadAccepts 60 40 = false ∧ (1 ≤ (40 : Int) ∧ (40 : Int) ≤ 60) ∧
      downloadAccepts 10 20 = true ∧ ¬ ((20 : Int) ≤ 10) := by
  decide

/-- C2 counterexample: two distinct stable segment files both parse to
timestamp 2024-01-01 00:00:00 (the second name also matches the glob
and `split(".")[0]` drops its extra suffix), so the selector's output,
while non-empty, is not strictly ascending. -/
theorem c2_counterexample :
    (0 : Int) < 1 ∧ stableSegments 100 [tieA, tieB] ≠ [] ∧
      recentSegmentsWithTs 2 100 [tieA, tieB] 1 ≠ [] ∧
      ¬ List.Pairwise (fun a b : Int => a < b)
        ((recentSegmentsWithTs 2 100 [tieA, tieB] 1).map (fun p => p.2)) := by
  decide

/-- C2 (amended): for every `minutes > 0`, if at least one stable
segment exists the selector returns a non-empty sequence sorted
non-decreasingly by timestamp — strictly ascending whenever the stable
segments carry pairwise-distinct timestamps, but only non-strictly when
timestamps tie. -/
theorem c2_select_sorted (segSec : Nat) (now : Int) (dir : List DirEntry)
    (minutes : Int) (hm : 0 < minutes) (hne : stableSegments now dir ≠ []) :
    recentSegmentsWithTs segSec now dir minutes ≠ [] ∧
      List.Pairwise (fun a b : Int => a ≤ b)
        ((recentSegmentsWithTs segSec now dir minutes).map (fun p => p.2)) ∧
      (((stableSegments now dir).map (fun p => p.2)).Nodup →
        List.Pairwise (fun a b : Int => a < b)
          ((recentSegmentsWithTs segSec now dir minutes).map (fun p => p.2))) := by
  have hlen := length_recentSegmentsWithTs segSec now dir minutes hm
  have hpos : 0 < (stableSegments now dir).length := List.length_pos.mpr hne
  have hsorted : List.Pairwise tsLE (recentSegmentsWithTs segSec now dir minutes) := by
    unfold recentSegmentsWithTs
    rw [if_neg (by omega), if_neg hne]
    exact List.sorted_insertionSort tsLE _
  have hle : List.Pairwise (fun a b : Int => a ≤ b)
      ((recentSegmentsWithTs segSec now dir minutes).map (fun p => p.2)) :=
    List.pairwise_map.mpr hsorted
  refine ⟨?_, hle, ?_⟩
  · intro h
    rw [h] at hlen
    simp only [List.length_nil] at hlen
    have hone : 1 ≤ min (segmentsNeeded segSec minutes) (stableSegments now dir).length :=
      le_min (Nat.succ_le_succ (Nat.zero_le _)) hpos
    rw [← hlen] at hone
    exact Nat.not_succ_le_zero 0 hone
  · intro hnd
    have hnodup : ((recentSegmentsWithTs segSec now dir minutes).map (fun p => p.2)).Nodup :=
      nodup_map_recentSegmentsWithTs hnd
    exact (hle.and hnodup).imp (fun h => lt_of_le_of_ne h.1 h.2)

/-- Witness for C2 (amended) at a one-segment directory. -/
theorem c2_select_sorted_witness :
    (0 : Int) < 1 ∧ stableSegments 100 [tieA] ≠ [] ∧
      recentSegmentsWithTs 2 100 [tieA] 1 ≠ [] := by
  refine ⟨by decide, by decide, ?_⟩
  exact (c2_select_sorted 2 100 [tieA] 1 (by decide) (by decide)).1

/-- C5: one sweep tick deletes exactly the listed segment files whose
stat succeeds and whose mtime is strictly older than
`now - (retention_minutes + margin_minutes) * 60` and keeps every other
entry; a per-file stat/delete error only exempts that one file. -/
theorem c5_cleanup_tick (bm cm : Nat) (now : Int) (dir : List DirEntry)
    (h : (dir.map DirEntry.name).Nodup) :
    cleanupOldSegments bm cm now dir = dir.filter (fun e =>
      !(matchesSegGlob e.name && e.isFile && !e.statError &&
        decide (e.mtime < now - ((bm + cm : Nat) : Int) * 60))) := by
  unfold cleanupOldSegments
  rw [deletedByCleanup_eq]
  apply List.filter_congr
  intro e he
  congr 1
  rw [Bool.eq_iff_iff]
  constructor
  · intro hc
    obtain ⟨e', he', hname⟩ := List.mem_map.mp (List.elem_iff.mp hc)
    obtain ⟨hiter, hcond⟩ := List.mem_filter.mp he'
    obtain ⟨hdir, hglobfile⟩ := List.mem_filter.mp hiter
    have heq : e' = e := List.inj_on_of_nodup_map h hdir he hname
    subst heq
    simp only [Bool.and_eq_true, Bool.not_eq_true', decide_eq_true_eq] at hglobfile hcond
    simp only [Bool.and_eq_true, Bool.not_eq_true', decide_eq_true_eq]
    exact ⟨⟨⟨hglobfile.1, hglobfile.2⟩, hcond.1⟩, hcond.2⟩
  · intro hr
    simp only [Bool.and_eq_true, Bool.not_eq_true', decide_eq_true_eq] at hr
    obtain ⟨⟨⟨hglob, hfile⟩, herr⟩, hold⟩ := hr
    refine List.elem_iff.mpr (List.mem_map.mpr ⟨e, List.mem_filter.mpr
      ⟨List.mem_filter.mpr ⟨he, ?_⟩, ?_⟩, rfl⟩)
    · simp only [Bool.and_eq_true]
      exact ⟨hglob, hfile⟩
    · simp only [Bool.and_eq_true, Bool.not_eq_true', decide_eq_true_eq]
      exact ⟨herr, hold⟩

/-- Witness for C5: retention 12 min, margin 2 min at `now = 10000`:
the 15-minute-old file is gone, the 13-minute-old and exactly
14-minute-old files stay, and a stat failure on one old file does not
stop the others from being processed. -/
theorem c5_cleanup_tick_witness :
    (([sweepKeep1, sweepGone, sweepErr, sweepKeep2].map DirEntry.name).Nodup) ∧
      cleanupOldSegments 12 2 10000 [sweepKeep1, sweepGone, sweepErr, sweepKeep2] =
        [sweepKeep1, sweepErr, sweepKeep2] := by
  refine ⟨by decide, ?_⟩
  rw [c5_cleanup_tick 12 2 10000 _ (by decide)]
  decide

/-- C6: when the selector returns no segments and `minutes` passed
validation, the download endpoint answers 503 with the try-again
message — not a 500 internal error — and never reaches the streaming
(concatenation) branch. -/
theorem c6_download_not_ready (segSec : Nat) (now : Int) (dir : List DirEntry)
    (fs : String → Option Nat) (minutes : Int) (h1 : 1 ≤ minutes) (h2 : minutes ≤ 30)
    (hsel : recentSegmentsForMinutes segSec now dir minutes = []) :
    download segSec now dir fs minutes =
        .httpError 503 "Buffer not ready yet; please try again shortly" ∧
      (∀ d, download segSec now dir fs minutes ≠ .httpError 500 d) ∧
      (∀ b mt fn, download segSec now dir fs minutes ≠ .streaming b mt fn) := by
  have he : download segSec now dir fs minutes =
      .httpError 503 "Buffer not ready yet; please try again shortly" := by
    unfold download
    rw [if_neg (by simp [h1, h2]), if_pos hsel]
  refine ⟨he, ?_, ?_⟩ <;> intros <;> simp [he]

/-- Witness for C6: an empty buffer directory with `minutes = 1`. -/
theorem c6_download_not_ready_witness :
    recentSegmentsForMinutes 2 100 [] 1 = [] ∧
      download 2 100 [] (fun _ => none) 1 =
        DownloadResponse.httpError 503 "Buffer not ready yet; please try again shortly" := by
  refine ⟨by decide, ?_⟩
  exact (c6_download_not_ready 2 100 [] (fun _ => none) 1 (by decide) (by decide)
    (by decide)).1

/-- C7: when every listed path has vanished or has size 0 at use time,
`_concat_stream` returns the explicit empty-list value, which is a
different value from any generator-backed stream — even a zero-length
one. -/
theorem c7_concat_nothing (fs : String → Option Nat) (files : List String)
    (h : ∀ p ∈ files, fs p = none ∨ fs p = some 0) :
    concatStream fs files = ConcatResult.emptyList ∧
      ∀ m, concatStream fs files ≠ ConcatResult.generator m := by
  have he : concatStream fs files = ConcatResult.emptyList := by
    unfold concatStream
    split
    · rfl
    · rw [if_pos]
      rw [List.filter_eq_nil_iff]
      intro p hp
      rcases h p hp with h' | h' <;> simp [h']
  exact ⟨he, fun m hm => by rw [he] at hm; exact ConcatResult.noConfusion hm⟩

/-- Witness for C7: one listed path, present but empty at use time. -/
theorem c7_concat_nothing_witness :
    (∀ p ∈ ["seg_a.mp3"], (fun _ => some 0 : String → Option Nat) p = none ∨
        (fun _ => some 0 : String → Option Nat) p = some 0) ∧
      concatStream (fun _ => some 0) ["seg_a.mp3"] = ConcatResult.emptyList := by
  refine ⟨by decide, ?_⟩
  exact (c7_concat_nothing (fun _ => some 0) ["seg_a.mp3"] (by decide)).1

/-- C10: every returned path is a name from the `seg_*.mp3` listing of
regular files taken at the start of the call, and, for a real directory
(pairwise-distinct names), the returned list holds no duplicates. -/
theorem c10_subset_nodup (segSec : Nat) (now : Int) (dir : List DirEntry)
    (minutes : Int) (h : (dir.map DirEntry.name).Nodup) :
    (∀ n ∈ recentSegmentsForMinutes segSec now dir minutes,
        n ∈ (iterSegmentFiles dir).map DirEntry.name) ∧
      (recentSegmentsForMinutes segSec now dir minutes).Nodup := by
  constructor
  · intro n hn
    unfold recentSegmentsForMinutes at hn
    obtain ⟨p, hp, rfl⟩ := List.mem_map.mp hn
    have hm := mem_stableSegments_iff.mp (mem_recentSegmentsWithTs hp)
    exact List.mem_map.mpr ⟨p.1, hm.1, rfl⟩
  · unfold recentSegmentsForMinutes
    apply nodup_map_recentSegmentsWithTs
    rw [stableSegments_map_name]
    have hsub : List.Sublist ((iterSegmentFiles dir).filter (fun e =>
        !e.statError && !(e.size == 0) && decide (e.mtime < now - 2))) dir :=
      (List.filter_sublist _).trans (List.filter_sublist dir)
    exact (hsub.map DirEntry.name).nodup h

/-- Witness for C10 at the two-file tie directory. -/
theorem c10_subset_nodup_witness :
    (([tieA, tieB].map DirEntry.name).Nodup) ∧
      (recentSegmentsForMinutes 2 100 [tieA, tieB] 1).Nodup := by
  refine ⟨by decide, ?_⟩
  exact (c10_subset_nodup 2 100 [tieA, tieB] 1 (by decide)).2

end StandaloneBuffer
